import Mathlib

/-!
Verification of the addon-flow-operator validation engine.

The development shallowly embeds the Go sources:
* `src/internal/cmd/validate.go` — CLI pipeline (`validateMain`, `verifyEnv`,
  `verifyVersion`, `verifyAddonDir`), together with the `golang.org/x/mod/semver`
  parser that `verifyVersion` delegates to;
* `src/unnamed/part_001` — the validator registry (`Add`, `Get`, `All`, `Len`);
* `src/pkg/validators/am0004_icon_base64.go` — rule AM0004 (`ValidateIconBase64`).

The selection filter (`NewFilter`, `Includes`) and the orchestrator
(`Run` / `ValidateCLI`) are not part of the provided sources; they are modelled
from the specification (sections 4.2, 4.4 and 6) and marked as such.

Go maps are embedded as association lists with map-update semantics, Go errors
as `Except String`, and external collaborators (filesystem stat, metadata
loader, bundle extractor, the base64 and png decoders) as explicit inputs.
-/

namespace AddonFlow

/-! ## Embedding of golang.org/x/mod/semver (dependency of verifyVersion) -/

/-- ASCII decimal digit test, as used throughout the Go semver parser. -/
def isDigitCh (c : Char) : Bool := '0' ≤ c && c ≤ '9'

/-- Go `semver.isIdentChar`: ASCII letters, digits and the hyphen. -/
def isIdentChar (c : Char) : Bool :=
  ('A' ≤ c && c ≤ 'Z') || ('a' ≤ c && c ≤ 'z') || ('0' ≤ c && c ≤ '9') || c = '-'

/-- Go `semver.isBadNum`: an all-digit identifier longer than one character
that starts with a zero. -/
def isBadNum (v : List Char) : Bool :=
  v.all isDigitCh && decide (v.length > 1) && v.headD 'x' = '0'

/-- Go `semver.parseInt`: consume a leading run of digits, rejecting
leading zeros (except the single digit 0); returns the digits and the rest. -/
def parseIntGo (v : List Char) : Option (List Char × List Char) :=
  match v with
  | [] => none
  | c :: rest =>
    if isDigitCh c then
      let t := c :: rest.takeWhile isDigitCh
      let r := rest.dropWhile isDigitCh
      if c = '0' && t.length != 1 then none else some (t, r)
    else none

/-- Split a character list on a separator character; used to model the
identifier scanning loops of the Go semver parser and the CSV flag parsing. -/
def splitOnCh (sep : Char) : List Char → List (List Char)
  | [] => [[]]
  | c :: rest =>
    if c = sep then [] :: splitOnCh sep rest
    else
      match splitOnCh sep rest with
      | [] => [[c]]
      | g :: gs => (c :: g) :: gs

/-- Go `semver.parsePrerelease`: a hyphen followed by dot-separated
identifiers made of ident chars, each non-empty and not a bad number;
scanning stops at a plus sign. -/
def parsePrerelease (v : List Char) : Option (List Char × List Char) :=
  match v with
  | '-' :: rest =>
    let body := rest.takeWhile (· ≠ '+')
    let after := rest.dropWhile (· ≠ '+')
    if body.all (fun c => isIdentChar c || c = '.') &&
        (splitOnCh '.' body).all (fun id => !id.isEmpty && !isBadNum id) then
      some ('-' :: body, after)
    else none
  | _ => none

/-- Go `semver.parseBuild`: a plus sign followed by dot-separated non-empty
identifiers made of ident chars, running to the end of the string. -/
def parseBuild (v : List Char) : Option (List Char × List Char) :=
  match v with
  | '+' :: rest =>
    if rest.all (fun c => isIdentChar c || c = '.') &&
        (splitOnCh '.' rest).all (fun id => !id.isEmpty) then
      some ('+' :: rest, [])
    else none
  | _ => none

/-- The optional prerelease and build suffix of Go `semver.parse`, after the
numeric components: optional `-prerelease`, then optional `+build`, then the
input must be exhausted. -/
def parseSuffixOk (v : List Char) : Bool :=
  let afterPre : Option (List Char) :=
    match v with
    | '-' :: _ => (parsePrerelease v).map (·.2)
    | _ => some v
  match afterPre with
  | none => false
  | some r =>
    let afterBuild : Option (List Char) :=
      match r with
      | '+' :: _ => (parseBuild r).map (·.2)
      | _ => some r
    match afterBuild with
    | none => false
    | some r2 => r2.isEmpty

/-- Go `semver.parse`, reduced to its success bit: a leading `v`, a major
number, then optional `.minor`, optional `.patch`, optional prerelease and
build parts. -/
def semverParseOk (v : List Char) : Bool :=
  match v with
  | 'v' :: rest =>
    match parseIntGo rest with
    | none => false
    | some (_, r1) =>
      match r1 with
      | [] => true
      | '.' :: r2 =>
        match parseIntGo r2 with
        | none => false
        | some (_, r3) =>
          match r3 with
          | [] => true
          | '.' :: r4 =>
            match parseIntGo r4 with
            | none => false
            | some (_, r5) => parseSuffixOk r5
          | _ => false
      | _ => false
  | _ => false

/-- Go `semver.IsValid`. -/
def IsValid (s : String) : Bool := semverParseOk s.data

/-! ## validate.go: flag defaults and the verify helpers -/

/-- Default value of the `--env` flag (`validateEnv` in validate.go). -/
def validateEnvDefault : String := "stage"

/-- Default value of the `--version` flag (`validateVersion` in validate.go). -/
def validateVersionDefault : String := ""

/-- Go `verifyEnv` (validate.go): only the three environment literals pass. -/
def verifyEnv (env : String) : Except String Unit :=
  if env ≠ "integration" && env ≠ "stage" && env ≠ "production" then
    .error (env ++ " is not a valid environment; must be one of integration, stage or production")
  else .ok ()

/-- Go `verifyVersion` (validate.go): the empty string is accepted (fallback
to the metadata default), and otherwise the string must be `latest` or make a
valid semver once prefixed with `v`. -/
def verifyVersion (version : String) : Except String Unit :=
  if version = "" then .ok ()
  else if version ≠ "latest" && !(IsValid ("v" ++ version)) then
    .error (version ++ " is not a valid version; must be one of latest or match MAJOR.MINOR.PATCH")
  else .ok ()

/-- The MAJOR.MINOR.PATCH format named by the specification: exactly three
dot-separated non-empty runs of digits. Stated from the words of the spec,
for comparison against the behaviour of `verifyVersion`. -/
def isMajorMinorPatch (s : String) : Bool :=
  match splitOnCh '.' s.data with
  | [a, b, c] =>
    !a.isEmpty && a.all isDigitCh && !b.isEmpty && b.all isDigitCh &&
      !c.isEmpty && c.all isDigitCh
  | _ => false

/-- Go `verifyAddonDir` (validate.go), with the `os.Stat` result supplied as
input: an error from stat is propagated, and a non-directory is rejected. -/
def verifyAddonDir (statResult : Except String Bool) : Except String Unit :=
  match statResult with
  | .error e => .error ("error while reading directory: " ++ e)
  | .ok isDir => if isDir then .ok () else .error "the given path is not a directory"

/-! ## Data model: metadata, subject, validators -/

/-- The addon metadata fields read by the embedded rules
(`metabundle.AddonMeta` in the Go sources). -/
structure AddonMeta where
  ID : String
  Icon : String
  deriving Repr, DecidableEq

/-- The subject passed to every rule (`types.MetaBundle` / `utils.MetaBundle`):
the loaded addon metadata together with the extracted bundles. -/
structure MetaBundle where
  AddonMeta : AddonMeta
  Bundles : List String
  deriving Repr, DecidableEq

/-- A validation rule (`types.Validator` / `utils.Validator`): a unique code,
a name, a description and a runner returning the Go
`(passed bool, message string, error)` triple, with `error` as an option. -/
structure Validator where
  Code : String
  Name : String
  Description : String
  Runner : MetaBundle → Bool × String × Option String

/-! ## Registry (src/unnamed/part_001)

The Go registry is a `map[string]types.Validator`; it is embedded as an
association list with map-update semantics (`mapLookup` finds the binding of
a key, `mapInsert` replaces it or appends a fresh one). -/

/-- Lookup of a key in the association-list embedding of a Go map. -/
def mapLookup (d : List (String × Validator)) (k : String) : Option Validator :=
  match d with
  | [] => none
  | (k', v') :: rest => if k' = k then some v' else mapLookup rest k

/-- Update of a key in the association-list embedding of a Go map:
`d[k] = v` replaces the existing binding or appends a new one. -/
def mapInsert (d : List (String × Validator)) (k : String) (v : Validator) :
    List (String × Validator) :=
  match d with
  | [] => [(k, v)]
  | (k', v') :: rest =>
    if k' = k then (k, v) :: rest else (k', v') :: mapInsert rest k v

/-- Go `defaultRegistry` (src/unnamed/part_001): the mapping from codes to
validators. -/
structure defaultRegistry where
  Data : List (String × Validator)

/-- Go `defaultRegistry.Add`: panics via `log.Panicf` when the code is
already present (embedded as `Except.error`), otherwise stores the validator
under its code. -/
def Add (r : defaultRegistry) (v : Validator) : Except String defaultRegistry :=
  match mapLookup r.Data v.Code with
  | some _ => .error ("Validator code " ++ v.Code ++ " already exist.")
  | none => .ok ⟨mapInsert r.Data v.Code v⟩

/-- Go `defaultRegistry.Len`. -/
def Len (r : defaultRegistry) : Nat := r.Data.length

/-- Go `defaultRegistry.All`. -/
def All (r : defaultRegistry) : List (String × Validator) := r.Data

/-- Go `defaultRegistry.Get`: the found flag of the Go two-valued map read is
the `isSome` of the returned option. -/
def Get (r : defaultRegistry) (k : String) : Option Validator :=
  mapLookup r.Data k

/-! ## Selection filter

Modelled from the spec: the filter implementation (`validate.NewFilter`,
`Filter.Includes`) is not among the provided sources, only its caller in
validate.go and the contract in spec section 4.2. -/

/-- Go `strings.TrimSpace`, restricted to ASCII whitespace. -/
def trimChars (l : List Char) : List Char :=
  ((l.dropWhile (·.isWhitespace)).reverse.dropWhile (·.isWhitespace)).reverse

/-- Modelled from the spec: parsing of one comma-separated flag value —
split on commas, trim surrounding whitespace, ignore empty fields, so the
empty string yields the empty set. -/
def parseCSV (s : String) : List String :=
  ((splitOnCh ',' s.data).map (fun l => String.mk (trimChars l))).filter (· ≠ "")

/-- The selection filter: an enabled set and a disabled set of rule codes. -/
structure Filter where
  enabled : List String
  disabled : List String
  deriving Repr, DecidableEq

/-- Modelled from the spec: `NewFilter(disabledCSV, enabledCSV)` fails when
both parsed lists are non-empty, fails when a listed code is not a key of
the live registry, and otherwise returns the two parsed sets. -/
def NewFilter (registry : defaultRegistry) (disabledCSV enabledCSV : String) :
    Except String Filter :=
  let disabled := parseCSV disabledCSV
  let enabled := parseCSV enabledCSV
  if !disabled.isEmpty && !enabled.isEmpty then
    .error "the enabled and disabled flags cannot be combined"
  else if (disabled ++ enabled).any (fun c => (mapLookup registry.Data c).isNone) then
    .error "a listed validator code is not present in the registry"
  else .ok ⟨enabled, disabled⟩

/-- Modelled from the spec: `Includes(rule)` — allow-list mode when `enabled`
is non-empty, block-list mode when only `disabled` is non-empty, otherwise
everything is included. -/
def Filter.Includes (f : Filter) (v : Validator) : Bool :=
  if !f.enabled.isEmpty then f.enabled.contains v.Code
  else if !f.disabled.isEmpty then !(f.disabled.contains v.Code)
  else true

/-! ## Orchestrator

Modelled from the spec (section 4.4): `Run(subject, filter, registry)`
invokes every included rule, records hard errors and failures, and succeeds
iff both lists are empty; results are sorted by code for determinism. -/

/-- One recorded rule failure: the rule code and its message. -/
structure Outcome where
  Code : String
  message : String
  deriving Repr, DecidableEq

/-- Insertion of a validator into a list sorted by code. -/
def insertByCode (v : Validator) : List Validator → List Validator
  | [] => [v]
  | w :: rest =>
    if v.Code ≤ w.Code then v :: w :: rest else w :: insertByCode v rest

/-- Sorting of the selected validators by code (spec: deterministic order,
sort by code ascending). -/
def sortByCode : List Validator → List Validator
  | [] => []
  | v :: rest => insertByCode v (sortByCode rest)

/-- Modelled from the spec: invoke each rule in order against the subject;
a non-nil error goes to the hard-error list, `passed=false` appends the code
and message to the failures, `passed=true` only bumps the counter. -/
def runRules (subject : MetaBundle) : List Validator → Nat × List Outcome × List String
  | [] => (0, [], [])
  | v :: rest =>
    let r := runRules subject rest
    match v.Runner subject with
    | (_, _, some e) => (r.1, r.2.1, e :: r.2.2)
    | (true, _, none) => (r.1 + 1, r.2.1, r.2.2)
    | (false, msg, none) => (r.1, ⟨v.Code, msg⟩ :: r.2.1, r.2.2)

/-- Modelled from the spec: the orchestrator —
`Run(subject, filter, registry) -> (overallPassed, failures, hardErrors)`
over the code-sorted list of included registry rules; overall success iff
both the failures and the hard errors are empty. -/
def Run (registry : defaultRegistry) (f : Filter) (subject : MetaBundle) :
    Bool × List Outcome × List String :=
  let selected := sortByCode (((All registry).map (·.2)).filter f.Includes)
  let r := runRules subject selected
  (r.2.1.isEmpty && r.2.2.isEmpty, r.2.1, r.2.2)

/-- Modelled from the spec: `validate.ValidateCLI` as called from validate.go
returns the overall success flag and the list of hard errors handed to the
output reporter. -/
def ValidateCLI (subject : MetaBundle) (f : Filter) (registry : defaultRegistry) :
    Bool × List String :=
  let (success, _, hardErrors) := Run registry f subject
  (success, hardErrors)

/-! ## Rule AM0004 (src/pkg/validators/am0004_icon_base64.go)

The two external decoders, `base64.StdEncoding.DecodeString` and
`png.Decode`, are standard-library collaborators and enter the embedding as
explicit function arguments; the rule body itself is transcribed from the Go
source. -/

/-- Go `ValidateIconBase64`: an empty icon, a base64 decode error and a png
decode error each yield a deliberate fail verdict with a message; the error
component of the returned triple is `nil` on every path. -/
def ValidateIconBase64
    (base64DecodeString : String → Except String (List Nat))
    (pngDecode : List Nat → Except String Unit)
    (metabundle : MetaBundle) : Bool × String × Option String :=
  let icon := metabundle.AddonMeta.Icon
  if icon = "" then
    (false, "icon not found under the addon metadata of " ++ metabundle.AddonMeta.ID, none)
  else
    match base64DecodeString icon with
    | .error _ =>
      (false, "icon found to be improperly base64 populated under the addon metadata of "
        ++ metabundle.AddonMeta.ID, none)
    | .ok b64decoded =>
      ((pngDecode b64decoded).isOk,
        "the icon base64 value found to correspond to a non-png data under the addon metadata of "
          ++ metabundle.AddonMeta.ID, none)

/-- The registered AM0004 validator descriptor, parameterized by the two
external decoders. -/
def AM0004
    (base64DecodeString : String → Except String (List Nat))
    (pngDecode : List Nat → Except String Unit) : Validator where
  Code := "AM0004"
  Name := "icon_base64"
  Description := "Ensure that icon in Addon metadata is rightfully base64 encoded"
  Runner := ValidateIconBase64 base64DecodeString pngDecode

/-! ## The CLI pipeline (validateMain in validate.go)

External collaborators (the `os.Stat` of the addon directory, the metadata
loader and the bundle extractor) are supplied as inputs; the pipeline also
records which of them it consulted, in order, so that the reporting point of
each error class is visible in the model. -/

/-- The steps of a validation run that touch a collaborator: the directory
stat, the metadata load, the bundle extraction, the filter construction
(first touch of the registry) and the execution of the validators. -/
inductive Event where
  | statDir
  | loadMeta
  | extractBundles
  | buildFilter
  | runValidators
  deriving Repr, DecidableEq

/-- The inputs of one `validateMain` run: the flag values and the responses
of the external collaborators. -/
structure CLIInput where
  statResult : Except String Bool
  env : String
  version : String
  disabledFlag : String
  enabledFlag : String
  loadResult : Except String AddonMeta
  extractResult : Except String (List String)

/-- Go `verifyArgsAndFlags`: directory check, then environment, then
version. -/
def verifyArgsAndFlags (input : CLIInput) : Except String Unit := do
  verifyAddonDir input.statResult
  verifyEnv input.env
  verifyVersion input.version

/-- Go `validateMain`: parse the directory, verify args and flags, load
metadata, extract bundles, build the filter, run the validators; every error
exits with code 1, and code 0 is reached only when the run succeeds and the
verdict is success. The returned list records the consulted collaborators in
order. -/
def validateMain (registry : defaultRegistry) (input : CLIInput) : Nat × List Event :=
  match verifyAddonDir input.statResult with
  | .error _ => (1, [.statDir])
  | .ok _ =>
    match verifyEnv input.env with
    | .error _ => (1, [.statDir])
    | .ok _ =>
      match verifyVersion input.version with
      | .error _ => (1, [.statDir])
      | .ok _ =>
        match input.loadResult with
        | .error _ => (1, [.statDir, .loadMeta])
        | .ok meta =>
          match input.extractResult with
          | .error _ => (1, [.statDir, .loadMeta, .extractBundles])
          | .ok bundles =>
            match NewFilter registry input.disabledFlag input.enabledFlag with
            | .error _ => (1, [.statDir, .loadMeta, .extractBundles, .buildFilter])
            | .ok filter =>
              let events : List Event :=
                [.statDir, .loadMeta, .extractBundles, .buildFilter, .runValidators]
              let (success, errs) := ValidateCLI ⟨meta, bundles⟩ filter registry
              if !errs.isEmpty then (1, events)
              else if !success then (1, events)
              else (0, events)

/-! ## Concrete validators used to instantiate theorems -/

/-- A rule that always passes. -/
def rulePass (c : String) : Validator :=
  ⟨c, c, "", fun _ => (true, "ok", none)⟩

/-- A rule that always fails with the given message. -/
def ruleFail (c m : String) : Validator :=
  ⟨c, c, "", fun _ => (false, m, none)⟩

/-- A rule that always returns a hard error. -/
def ruleErr (c e : String) : Validator :=
  ⟨c, c, "", fun _ => (false, "", some e)⟩

/-- A fixed subject used when instantiating theorems. -/
def sampleBundle : MetaBundle := ⟨⟨"reference-addon", ""⟩, []⟩

/-- A one-rule registry used to instantiate the filter theorems. -/
def reg1 : defaultRegistry := ⟨[("AM0001", rulePass "AM0001")]⟩

/-- A three-rule registry matching the example of spec section 8: one rule
passes, one fails with message x, one returns hard error e. -/
def regABC : defaultRegistry :=
  ⟨[("AM01", rulePass "AM01"), ("AM02", ruleFail "AM02" "x"), ("AM03", ruleErr "AM03" "e")]⟩

/-! ## Registry lemmas -/

theorem mapLookup_mapInsert_self (d : List (String × Validator)) (k : String) (v : Validator) :
    mapLookup (mapInsert d k v) k = some v := by
  induction d with
  | nil => simp [mapInsert, mapLookup]
  | cons p rest ih =>
    by_cases h : p.1 = k
    · simp [mapInsert, mapLookup, h]
    · simp [mapInsert, mapLookup, h, ih]

theorem mapLookup_mapInsert_ne (d : List (String × Validator)) (k k' : String) (v : Validator)
    (h : k' ≠ k) : mapLookup (mapInsert d k v) k' = mapLookup d k' := by
  have h2 : ¬(k = k') := fun hEq => h hEq.symm
  induction d with
  | nil => simp [mapInsert, mapLookup, h2]
  | cons p rest ih =>
    by_cases hp : p.1 = k
    · simp [mapInsert, mapLookup, hp, h2]
    · simp [mapInsert, mapLookup, hp, ih]

theorem length_mapInsert_of_absent (d : List (String × Validator)) (k : String) (v : Validator)
    (h : mapLookup d k = none) : (mapInsert d k v).length = d.length + 1 := by
  induction d with
  | nil => simp [mapInsert]
  | cons p rest ih =>
    by_cases hp : p.1 = k
    · simp [mapLookup, hp] at h
    · simp [mapLookup, hp] at h
      simp [mapInsert, hp, ih h]

/-- Claim C5: for every registry state and every rule, `Add` fails (the
embedded `log.Panicf`) exactly when a rule with the same code is already
present; in particular adding two rules sharing a code fails in either
order, and when the code is fresh the rule is inserted. -/
theorem add_duplicate_code_fatal (r : defaultRegistry) (v : Validator) :
    ((Add r v).isOk = true ↔ mapLookup r.Data v.Code = none) ∧
    (mapLookup r.Data v.Code = none → Add r v = .ok ⟨mapInsert r.Data v.Code v⟩) ∧
    ∀ v₁ v₂ : Validator, v₁.Code = v₂.Code →
      ((Add r v₁).bind (fun r' => Add r' v₂)).isOk = false ∧
      ((Add r v₂).bind (fun r' => Add r' v₁)).isOk = false := by
  refine ⟨?_, ?_, ?_⟩
  · unfold Add
    cases h : mapLookup r.Data v.Code <;> simp [Except.isOk, Except.toBool]
  · intro h
    unfold Add
    rw [h]
  · intro v₁ v₂ hcode
    constructor
    · unfold Add
      cases h : mapLookup r.Data v₁.Code with
      | some w => simp [Except.isOk, Except.toBool, Except.bind]
      | none =>
        have h2 : mapLookup (mapInsert r.Data v₁.Code v₁) v₂.Code = some v₁ := by
          rw [← hcode]; exact mapLookup_mapInsert_self _ _ _
        simp [Except.isOk, Except.toBool, Except.bind, h2]
    · unfold Add
      cases h : mapLookup r.Data v₂.Code with
      | some w => simp [Except.isOk, Except.toBool, Except.bind]
      | none =>
        have h2 : mapLookup (mapInsert r.Data v₂.Code v₂) v₁.Code = some v₂ := by
          rw [hcode]; exact mapLookup_mapInsert_self _ _ _
        simp [Except.isOk, Except.toBool, Except.bind, h2]

/-- Witness for C5 at a concrete registry: adding AM0001 twice fails in both
orders, and the first insertion succeeds. -/
theorem add_duplicate_code_fatal_inst :
    ((Add ⟨[]⟩ (rulePass "AM0001")).bind
      (fun r' => Add r' (ruleFail "AM0001" "m"))).isOk = false ∧
    ((Add ⟨[]⟩ (ruleFail "AM0001" "m")).bind
      (fun r' => Add r' (rulePass "AM0001"))).isOk = false ∧
    Add ⟨[]⟩ (rulePass "AM0001") = .ok ⟨[("AM0001", rulePass "AM0001")]⟩ := by
  have h := add_duplicate_code_fatal ⟨[]⟩ (rulePass "AM0001")
  have hpair := h.2.2 (rulePass "AM0001") (ruleFail "AM0001" "m") rfl
  exact ⟨hpair.1, hpair.2, h.2.1 rfl⟩

/-- Claim C10: adding a fresh-coded rule succeeds, makes `Get` find it with
the found flag true, grows `Len` by one and leaves every previously
registered binding untouched. -/
theorem add_fresh_frame (r : defaultRegistry) (v : Validator)
    (hfresh : Get r v.Code = none) :
    ∃ r', Add r v = .ok r' ∧
      Get r' v.Code = some v ∧
      Len r' = Len r + 1 ∧
      ∀ c, (Get r c).isSome = true → Get r' c = Get r c := by
  refine ⟨⟨mapInsert r.Data v.Code v⟩, ?_, ?_, ?_, ?_⟩
  · unfold Add
    rw [show mapLookup r.Data v.Code = none from hfresh]
  · exact mapLookup_mapInsert_self _ _ _
  · exact length_mapInsert_of_absent _ _ _ hfresh
  · intro c hc
    have hne : c ≠ v.Code := by
      intro hEq
      rw [hEq] at hc
      rw [show Get r v.Code = none from hfresh] at hc
      simp at hc
    exact mapLookup_mapInsert_ne _ _ _ _ hne

/-- Witness for C10: adding AM0002 to a registry holding AM0001 yields a
registry where AM0002 is found, the length is two and AM0001 is unchanged. -/
theorem add_fresh_frame_inst :
    ∃ r', Add ⟨[("AM0001", rulePass "AM0001")]⟩ (ruleFail "AM0002" "m") = .ok r' ∧
      Get r' "AM0002" = some (ruleFail "AM0002" "m") ∧
      Len r' = 2 ∧
      Get r' "AM0001" = Get ⟨[("AM0001", rulePass "AM0001")]⟩ "AM0001" := by
  have h := add_fresh_frame ⟨[("AM0001", rulePass "AM0001")]⟩ (ruleFail "AM0002" "m") rfl
  obtain ⟨r', h1, h2, h3, h4⟩ := h
  refine ⟨r', h1, h2, by rw [h3]; rfl, h4 "AM0001" rfl⟩

/-! ## Filter claims -/

theorem isOk_error {α β : Type} (e : α) : (Except.error e : Except α β).isOk = false := rfl

theorem isOk_ok {α β : Type} (b : β) : (Except.ok b : Except α β).isOk = true := rfl

/-- Claim C2: for every successfully constructed filter and every rule,
`Includes` follows the strict two-mode policy — allow-list when `enabled` is
non-empty, block-list when only `disabled` is non-empty, include-everything
when both are empty. -/
theorem includes_two_mode_policy (registry : defaultRegistry) (d e : String) (f : Filter)
    (_hf : NewFilter registry d e = .ok f) (v : Validator) :
    (f.enabled ≠ [] → (f.Includes v = true ↔ v.Code ∈ f.enabled)) ∧
    (f.enabled = [] → f.disabled ≠ [] → (f.Includes v = true ↔ v.Code ∉ f.disabled)) ∧
    (f.enabled = [] → f.disabled = [] → f.Includes v = true) := by
  refine ⟨?_, ?_, ?_⟩
  · intro he
    simp [Filter.Includes, List.isEmpty_eq_false.mpr he, List.elem_iff]
  · intro he hd
    simp [Filter.Includes, he, List.isEmpty_eq_false.mpr hd, List.elem_iff]
  · intro he hd
    simp [Filter.Includes, he, hd]

/-- Witness for C2: with the filter built from `enabled=AM0001`, inclusion
is exactly membership in the enabled list. -/
theorem includes_two_mode_policy_inst :
    (Filter.Includes ⟨["AM0001"], []⟩ (rulePass "AM0001") = true ↔
      "AM0001" ∈ ["AM0001"]) ∧
    (Filter.Includes ⟨["AM0001"], []⟩ (ruleFail "AM0002" "m") = true ↔
      "AM0002" ∈ ["AM0001"]) := by
  have h1 := includes_two_mode_policy reg1 "" "AM0001" ⟨["AM0001"], []⟩ rfl (rulePass "AM0001")
  have h2 := includes_two_mode_policy reg1 "" "AM0001" ⟨["AM0001"], []⟩ rfl (ruleFail "AM0002" "m")
  exact ⟨h1.1 (by decide), h2.1 (by decide)⟩

/-- Claim C3: `NewFilter` succeeds exactly when the two parsed lists are not
both non-empty and every referenced code is a key of the live registry; the
CSV parsing maps the empty string to the empty set, trims surrounding
whitespace and drops empty fields. -/
theorem newFilter_validation (registry : defaultRegistry) (d e : String) :
    ((NewFilter registry d e).isOk = true ↔
      ¬(parseCSV d ≠ [] ∧ parseCSV e ≠ []) ∧
        ∀ c ∈ parseCSV d ++ parseCSV e, (mapLookup registry.Data c).isSome = true) ∧
    parseCSV "" = [] ∧
    parseCSV "  " = [] ∧
    parseCSV " AM0001 ,, AM0002 " = ["AM0001", "AM0002"] := by
  refine ⟨?_, by decide, by decide, by decide⟩
  unfold NewFilter
  by_cases h1 : (!(parseCSV d).isEmpty && !(parseCSV e).isEmpty) = true
  · rw [if_pos h1]
    simp only [Bool.and_eq_true, Bool.not_eq_true'] at h1
    have hd := List.isEmpty_eq_false.mp h1.1
    have he := List.isEmpty_eq_false.mp h1.2
    constructor
    · intro h
      simp [isOk_error] at h
    · rintro ⟨hni, -⟩
      exact absurd ⟨hd, he⟩ hni
  · rw [if_neg h1]
    by_cases h2 : ((parseCSV d ++ parseCSV e).any
        (fun c => (mapLookup registry.Data c).isNone)) = true
    · rw [if_pos h2]
      obtain ⟨c, hc, hnone⟩ := List.any_eq_true.mp h2
      constructor
      · intro h
        simp [isOk_error] at h
      · rintro ⟨-, hall⟩
        have hs := hall c hc
        rw [Option.isNone_iff_eq_none.mp hnone] at hs
        simp at hs
    · rw [if_neg h2]
      constructor
      · intro _
        refine ⟨?_, ?_⟩
        · rintro ⟨hd, he⟩
          exact h1 (by simp [List.isEmpty_eq_false.mpr hd, List.isEmpty_eq_false.mpr he])
        · intro c hc
          by_contra hns
          have hn : (mapLookup registry.Data c).isNone = true := by
            cases hmem : mapLookup registry.Data c with
            | none => rfl
            | some w => exact absurd (by simp [hmem]) hns
          exact h2 (List.any_eq_true.mpr ⟨c, hc, hn⟩)
      · intro _
        rfl

/-- Witness for C3: supplying both lists fails, a single known code
succeeds, an unknown code fails. -/
theorem newFilter_validation_inst :
    (NewFilter reg1 "AM0001" "AM0001").isOk = false ∧
    (NewFilter reg1 "" "AM0001").isOk = true ∧
    (NewFilter reg1 "" "AM9999").isOk = false := by
  have hboth := (newFilter_validation reg1 "AM0001" "AM0001").1
  have hok := (newFilter_validation reg1 "" "AM0001").1
  have hunk := (newFilter_validation reg1 "" "AM9999").1
  refine ⟨?_, ?_, ?_⟩
  · cases hb : (NewFilter reg1 "AM0001" "AM0001").isOk with
    | false => rfl
    | true => exact ((hboth.mp hb).1 ⟨by decide, by decide⟩).elim
  · exact hok.mpr ⟨by decide, by decide⟩
  · cases hb : (NewFilter reg1 "" "AM9999").isOk with
    | false => rfl
    | true =>
      have hs := (hunk.mp hb).2 "AM9999" (by decide)
      exact absurd hs (by decide)

/-! ## Version claim C4 -/

/-- Counterexample to claim C4: the string 2.1 is neither empty nor the
literal latest and does not have the MAJOR.MINOR.PATCH shape, yet
`verifyVersion` accepts it, because the Go semver parser treats the minor
and patch components as optional. -/
theorem verifyVersion_accepts_non_mmp :
    verifyVersion "2.1" = .ok () ∧
    isMajorMinorPatch "2.1" = false ∧
    "2.1" ≠ "" ∧ "2.1" ≠ "latest" := by
  exact ⟨by rfl, by decide, by decide, by decide⟩

/-- Claim C4 as amended: `verifyVersion` accepts the empty string, the
literal latest, and exactly the strings that the Go x/mod semver parser
validates once prefixed with v (which includes MAJOR and MAJOR.MINOR
shorthands and prerelease/build suffixes besides MAJOR.MINOR.PATCH); every
rejection message names the offending string. -/
theorem verifyVersion_characterization (version : String) :
    ((verifyVersion version).isOk = true ↔
      (version = "" ∨ version = "latest" ∨ IsValid ("v" ++ version) = true)) ∧
    (∀ msg, verifyVersion version = .error msg → ∃ rest, msg = version ++ rest) := by
  constructor
  · unfold verifyVersion
    by_cases h1 : version = ""
    · simp [h1, isOk_ok]
    · rw [if_neg h1]
      by_cases h2 : version = "latest"
      · simp [h1, h2, isOk_ok]
      · by_cases h3 : IsValid ("v" ++ version) = true
        · simp [h1, h2, h3, isOk_ok]
        · simp only [Bool.not_eq_true] at h3
          simp [h1, h2, h3, isOk_error]
  · intro msg hmsg
    unfold verifyVersion at hmsg
    by_cases h1 : version = ""
    · rw [if_pos h1] at hmsg
      cases hmsg
    · rw [if_neg h1] at hmsg
      by_cases hcond : (version ≠ "latest" && !IsValid ("v" ++ version)) = true
      · rw [if_pos hcond] at hmsg
        cases hmsg
        exact ⟨" is not a valid version; must be one of latest or match MAJOR.MINOR.PATCH", rfl⟩
      · rw [if_neg hcond] at hmsg
        cases hmsg

/-- Witness for C4: the characterization applied to accepted and rejected
concrete versions. -/
theorem verifyVersion_characterization_inst :
    (verifyVersion "2.1.0").isOk = true ∧
    (verifyVersion "latest").isOk = true ∧
    (verifyVersion "").isOk = true ∧
    (verifyVersion "2.1.x").isOk = false ∧
    ∃ rest, "2.1.x" ++ " is not a valid version; must be one of latest or match MAJOR.MINOR.PATCH"
      = "2.1.x" ++ rest := by
  refine ⟨?_, ?_, ?_, ?_, ?_⟩
  · exact (verifyVersion_characterization "2.1.0").1.mpr (Or.inr (Or.inr (by decide)))
  · exact (verifyVersion_characterization "latest").1.mpr (Or.inr (Or.inl rfl))
  · exact (verifyVersion_characterization "").1.mpr (Or.inl rfl)
  · cases hb : (verifyVersion "2.1.x").isOk with
    | false => rfl
    | true =>
      have hr := (verifyVersion_characterization "2.1.x").1.mp hb
      exact absurd hr (by decide)
  · exact (verifyVersion_characterization "2.1.x").2 _ (by rfl)

/-! ## Environment claim C8 -/

/-- Claim C8: the `--env` flag defaults to stage, `verifyEnv` accepts
exactly the three environment literals, and an invalid environment makes
the run exit 1 before the filter is built or any validator runs. -/
theorem env_flag_check (env : String) (registry : defaultRegistry) (input : CLIInput) :
    validateEnvDefault = "stage" ∧
    ((verifyEnv env).isOk = true ↔
      (env = "integration" ∨ env = "stage" ∨ env = "production")) ∧
    ((verifyEnv input.env).isOk = false →
      (validateMain registry input).1 = 1 ∧
      Event.buildFilter ∉ (validateMain registry input).2 ∧
      Event.runValidators ∉ (validateMain registry input).2) := by
  refine ⟨rfl, ?_, ?_⟩
  · unfold verifyEnv
    by_cases h1 : env = "integration"
    · simp [h1, isOk_ok]
    · by_cases h2 : env = "stage"
      · simp [h1, h2, isOk_ok]
      · by_cases h3 : env = "production"
        · simp [h1, h2, h3, isOk_ok]
        · simp [h1, h2, h3, isOk_error]
  · intro hbad
    unfold validateMain
    cases hd : verifyAddonDir input.statResult with
    | error e => simp
    | ok u =>
      cases he : verifyEnv input.env with
      | error e => simp
      | ok u => rw [he] at hbad; simp [isOk_ok] at hbad

/-- Witness for C8: the environment string prod is rejected and the run with
it performs no filter construction and no validator execution. -/
theorem env_flag_check_inst :
    (verifyEnv "stage").isOk = true ∧
    (verifyEnv "prod").isOk = false ∧
    (validateMain reg1 ⟨.ok true, "prod", "", "", "", .ok ⟨"id", ""⟩, .ok []⟩).1 = 1 ∧
    Event.buildFilter ∉ (validateMain reg1 ⟨.ok true, "prod", "", "", "", .ok ⟨"id", ""⟩, .ok []⟩).2 := by
  have h := env_flag_check "stage" reg1 ⟨.ok true, "prod", "", "", "", .ok ⟨"id", ""⟩, .ok []⟩
  have hrun := h.2.2 (by decide)
  exact ⟨h.2.1.mpr (Or.inr (Or.inl rfl)), by decide, hrun.1, hrun.2.1⟩

/-! ## Rule AM0004 claim C9 -/

/-- Claim C9: for every pair of decoder behaviours and every subject,
`ValidateIconBase64` returns a nil error; a missing icon, a base64 decode
failure and a png decode failure each produce a deliberate fail verdict. -/
theorem validateIconBase64_no_hard_error
    (b64 : String → Except String (List Nat)) (png : List Nat → Except String Unit)
    (mb : MetaBundle) :
    (ValidateIconBase64 b64 png mb).2.2 = none ∧
    (mb.AddonMeta.Icon = "" → (ValidateIconBase64 b64 png mb).1 = false) ∧
    (∀ e, b64 mb.AddonMeta.Icon = .error e → (ValidateIconBase64 b64 png mb).1 = false) ∧
    (∀ bs, b64 mb.AddonMeta.Icon = .ok bs → (png bs).isOk = false →
      (ValidateIconBase64 b64 png mb).1 = false) := by
  unfold ValidateIconBase64
  by_cases hicon : mb.AddonMeta.Icon = ""
  · simp [hicon]
  · rw [if_neg hicon]
    cases hb : b64 mb.AddonMeta.Icon with
    | error e => simp [hb]
    | ok bs =>
      refine ⟨rfl, fun h => absurd h hicon, ?_, ?_⟩
      · intro e he
        cases he
      · intro bs' hbs' hpng
        cases hbs'
        exact hpng

/-- Witness for C9: a subject whose icon fails base64 decoding yields a fail
verdict with a nil error component. -/
theorem validateIconBase64_no_hard_error_inst :
    (ValidateIconBase64 (fun _ => .error "bad") (fun _ => .ok ()) ⟨⟨"id", "x"⟩, []⟩).2.2 = none ∧
    (ValidateIconBase64 (fun _ => .error "bad") (fun _ => .ok ()) ⟨⟨"id", "x"⟩, []⟩).1 = false := by
  have h := validateIconBase64_no_hard_error
    (fun _ => .error "bad") (fun _ => .ok ()) ⟨⟨"id", "x"⟩, []⟩
  exact ⟨h.1, h.2.2.1 "bad" rfl⟩

/-! ## Orchestrator claim C7 -/

theorem mem_insertByCode (v w : Validator) (l : List Validator) :
    w ∈ insertByCode v l ↔ w = v ∨ w ∈ l := by
  induction l with
  | nil => simp [insertByCode]
  | cons x rest ih =>
    unfold insertByCode
    by_cases h : v.Code ≤ x.Code
    · simp [h]
    · simp [h, ih]
      tauto

theorem mem_sortByCode (w : Validator) (l : List Validator) :
    w ∈ sortByCode l ↔ w ∈ l := by
  induction l with
  | nil => simp [sortByCode]
  | cons x rest ih =>
    unfold sortByCode
    rw [mem_insertByCode]
    simp [ih]

theorem runRules_hardError_mem (subject : MetaBundle) (l : List Validator) (v : Validator)
    (hv : v ∈ l) (e : String) (he : (v.Runner subject).2.2 = some e) :
    e ∈ (runRules subject l).2.2 := by
  induction l with
  | nil => cases hv
  | cons w rest ih =>
    rcases List.mem_cons.mp hv with hvw | hvr
    · subst hvw
      rcases hr : v.Runner subject with ⟨p, m, err⟩
      rw [hr] at he
      simp only at he
      subst he
      simp [runRules, hr]
    · have hmem := ih hvr
      rcases hr : w.Runner subject with ⟨p, m, err⟩
      cases err with
      | some e2 => simp [runRules, hr, hmem]
      | none => cases p <;> simp [runRules, hr, hmem]

theorem runRules_failure_mem (subject : MetaBundle) (l : List Validator) (v : Validator)
    (hv : v ∈ l) (m : String) (hrun : v.Runner subject = (false, m, none)) :
    (⟨v.Code, m⟩ : Outcome) ∈ (runRules subject l).2.1 := by
  induction l with
  | nil => cases hv
  | cons w rest ih =>
    rcases List.mem_cons.mp hv with hvw | hvr
    · subst hvw
      simp [runRules, hrun]
    · have hmem := ih hvr
      rcases hr : w.Runner subject with ⟨p, m2, err⟩
      cases err with
      | some e2 => simp [runRules, hr, hmem]
      | none => cases p <;> simp [runRules, hr, hmem]

/-- Claim C7: a rule returning a hard error never halts the remaining rules;
every selected rule leaves its outcome in the aggregated lists — its hard
error joins `hardErrors`, its fail verdict joins `failures`, and otherwise it
passed. -/
theorem run_isolates_rule_errors (registry : defaultRegistry) (f : Filter)
    (subject : MetaBundle) (v : Validator)
    (hv : v ∈ (All registry).map (·.2)) (hinc : f.Includes v = true) :
    (∀ e, (v.Runner subject).2.2 = some e → e ∈ (Run registry f subject).2.2) ∧
    (∀ m, v.Runner subject = (false, m, none) →
      (⟨v.Code, m⟩ : Outcome) ∈ (Run registry f subject).2.1) ∧
    ((v.Runner subject).2.2 = none →
      (v.Runner subject).1 = true ∨
        (⟨v.Code, (v.Runner subject).2.1⟩ : Outcome) ∈ (Run registry f subject).2.1) := by
  have hsel : v ∈ sortByCode (((All registry).map (·.2)).filter f.Includes) := by
    rw [mem_sortByCode]
    exact List.mem_filter.mpr ⟨hv, hinc⟩
  refine ⟨?_, ?_, ?_⟩
  · intro e he
    exact runRules_hardError_mem subject _ v hsel e he
  · intro m hrun
    exact runRules_failure_mem subject _ v hsel m hrun
  · intro hnone
    cases hp : (v.Runner subject).1 with
    | true => exact Or.inl rfl
    | false =>
      refine Or.inr (runRules_failure_mem subject _ v hsel _ ?_)
      rcases hr : v.Runner subject with ⟨p, m, err⟩
      rw [hr] at hnone hp
      simp only at hnone hp
      rw [hnone, hp]

/-- Witness for C7: in the three-rule registry with the empty filter, the
hard error of AM03 and the failure of AM02 both appear in the aggregate. -/
theorem run_isolates_rule_errors_inst :
    "e" ∈ (Run regABC ⟨[], []⟩ sampleBundle).2.2 ∧
    (⟨"AM02", "x"⟩ : Outcome) ∈ (Run regABC ⟨[], []⟩ sampleBundle).2.1 := by
  have h1 := run_isolates_rule_errors regABC ⟨[], []⟩ sampleBundle (ruleErr "AM03" "e")
    (List.Mem.tail _ (List.Mem.tail _ (List.Mem.head _))) rfl
  have h2 := run_isolates_rule_errors regABC ⟨[], []⟩ sampleBundle (ruleFail "AM02" "x")
    (List.Mem.tail _ (List.Mem.head _)) rfl
  exact ⟨h1.1 "e" rfl, h2.2.1 "x" rfl⟩

/-! ## Exit-code claim C1 -/

/-- Claim C1: the overall verdict of a run is success exactly when both the
failures and the hard errors are empty, and `validateMain` exits 0 exactly
when every preparation stage succeeds and the verdict is success — any
configuration, load, extraction, rule failure or rule hard error exits 1. -/
theorem exit_code_characterization (registry : defaultRegistry) (input : CLIInput) :
    (∀ f subject, (Run registry f subject).1 = true ↔
      (Run registry f subject).2.1 = [] ∧ (Run registry f subject).2.2 = []) ∧
    ((validateMain registry input).1 = 0 ∨ (validateMain registry input).1 = 1) ∧
    ((validateMain registry input).1 = 0 ↔
      (verifyAddonDir input.statResult).isOk = true ∧
      (verifyEnv input.env).isOk = true ∧
      (verifyVersion input.version).isOk = true ∧
      ∃ meta bundles f,
        input.loadResult = .ok meta ∧
        input.extractResult = .ok bundles ∧
        NewFilter registry input.disabledFlag input.enabledFlag = .ok f ∧
        (Run registry f ⟨meta, bundles⟩).2.1 = [] ∧
        (Run registry f ⟨meta, bundles⟩).2.2 = []) := by
  refine ⟨?_, ?_⟩
  · intro f subject
    simp [Run, List.isEmpty_iff]
  · unfold validateMain
    cases hd : verifyAddonDir input.statResult with
    | error e => simp [isOk_error]
    | ok u =>
    cases he : verifyEnv input.env with
    | error e => simp [isOk_error]
    | ok u2 =>
    cases hv : verifyVersion input.version with
    | error e => simp [isOk_error]
    | ok u3 =>
    cases hl : input.loadResult with
    | error e => simp [isOk_ok]
    | ok meta =>
    cases hx : input.extractResult with
    | error e => simp [isOk_ok]
    | ok bundles =>
    cases hf : NewFilter registry input.disabledFlag input.enabledFlag with
    | error e => simp [isOk_ok, hf]
    | ok filter =>
      have hcli : ValidateCLI ⟨meta, bundles⟩ filter registry
          = ((Run registry filter ⟨meta, bundles⟩).1,
              (Run registry filter ⟨meta, bundles⟩).2.2) := rfl
      simp only []
      rw [hcli]
      by_cases hhs : (Run registry filter ⟨meta, bundles⟩).2.2 = []
      · by_cases hfs : (Run registry filter ⟨meta, bundles⟩).2.1 = []
        · have hsucc : (Run registry filter ⟨meta, bundles⟩).1 = true := by
            simp [Run, List.isEmpty_iff] at hfs hhs ⊢
            exact ⟨hfs, hhs⟩
          simp only [hhs, hsucc, List.isEmpty_nil, Bool.not_false, Bool.not_true,
            if_neg, if_pos, Bool.false_eq_true, if_false]
          constructor
          · exact Or.inl (by simp)
          · constructor
            · intro _
              exact ⟨rfl, rfl, rfl, meta, bundles, filter, rfl, rfl, rfl, hfs, hhs⟩
            · intro _
              simp
        · have hsucc : (Run registry filter ⟨meta, bundles⟩).1 = false := by
            simp [Run, List.isEmpty_iff]
            intro hc
            exact absurd (by simp [Run, List.isEmpty_iff, hc]) hfs
          simp only [hhs, hsucc, List.isEmpty_nil, Bool.not_false, Bool.not_true]
          constructor
          · exact Or.inr (by simp)
          · constructor
            · intro h0
              simp at h0
            · rintro ⟨-, -, -, meta2, bundles2, f2, hm2, hb2, hf2, hfs2, hhs2⟩
              cases hm2
              cases hb2
              cases hf2
              exact absurd hfs2 hfs
      · have hne : ((Run registry filter ⟨meta, bundles⟩).2.2.isEmpty = false) := by
          rw [List.isEmpty_eq_false]
          exact hhs
        simp only [hne, Bool.not_false, if_pos]
        constructor
        · exact Or.inr (by simp)
        · constructor
          · intro h0
            simp at h0
          · rintro ⟨-, -, -, meta2, bundles2, f2, hm2, hb2, hf2, hfs2, hhs2⟩
            cases hm2
            cases hb2
            cases hf2
            exact absurd hhs2 hhs

/-- Witness for C1: a fully successful run over the one-rule registry exits
with code 0. -/
theorem exit_code_characterization_inst :
    (validateMain reg1 ⟨.ok true, "stage", "latest", "", "", .ok ⟨"id", ""⟩, .ok []⟩).1 = 0 := by
  have h := exit_code_characterization reg1
    ⟨.ok true, "stage", "latest", "", "", .ok ⟨"id", ""⟩, .ok []⟩
  exact h.2.2.mpr ⟨rfl, rfl, rfl, ⟨"id", ""⟩, [], ⟨[], []⟩, rfl, rfl, rfl, rfl, rfl⟩

/-! ## Reporting-order claim C6 -/

/-- Counterexample to claim C6: with both selection flags non-empty — a
configuration error — the run still performs the metadata load and the
bundle extraction before the filter error is reported, contradicting the
claim that every configuration error precedes that I/O. -/
theorem filter_config_error_after_io :
    (NewFilter reg1 "AM0001" "AM0001").isOk = false ∧
    validateMain reg1 ⟨.ok true, "stage", "", "AM0001", "AM0001", .ok ⟨"id", ""⟩, .ok []⟩
      = (1, [.statDir, .loadMeta, .extractBundles, .buildFilter]) ∧
    Event.loadMeta ∈
      (validateMain reg1 ⟨.ok true, "stage", "", "AM0001", "AM0001", .ok ⟨"id", ""⟩, .ok []⟩).2 ∧
    Event.extractBundles ∈
      (validateMain reg1 ⟨.ok true, "stage", "", "AM0001", "AM0001", .ok ⟨"id", ""⟩, .ok []⟩).2 := by
  exact ⟨rfl, rfl, by decide, by decide⟩

/-- Claim C6 as amended: directory, environment and version configuration
errors are reported before any metadata load or bundle extraction, but the
filter configuration errors (both lists non-empty, unknown code) are
checked only after the metadata load and the bundle extraction have been
performed — still before any validator runs. -/
theorem config_error_reporting_order (registry : defaultRegistry) (input : CLIInput) :
    ((verifyAddonDir input.statResult).isOk = false ∨
        (verifyEnv input.env).isOk = false ∨
        (verifyVersion input.version).isOk = false →
      validateMain registry input = (1, [.statDir])) ∧
    ((verifyAddonDir input.statResult).isOk = true →
      (verifyEnv input.env).isOk = true →
      (verifyVersion input.version).isOk = true →
      (∀ meta bundles,
        input.loadResult = .ok meta →
        input.extractResult = .ok bundles →
        (NewFilter registry input.disabledFlag input.enabledFlag).isOk = false →
        validateMain registry input
          = (1, [.statDir, .loadMeta, .extractBundles, .buildFilter]))) := by
  constructor
  · intro hbad
    unfold validateMain
    cases hd : verifyAddonDir input.statResult with
    | error e => rfl
    | ok u =>
    cases he : verifyEnv input.env with
    | error e => rfl
    | ok u2 =>
    cases hv : verifyVersion input.version with
    | error e => rfl
    | ok u3 =>
      rw [hd, he, hv] at hbad
      rcases hbad with h | h | h <;> simp [isOk_ok] at h
  · intro hd he hv meta bundles hl hx hfbad
    unfold validateMain
    cases hd2 : verifyAddonDir input.statResult with
    | error e => rw [hd2] at hd; simp [isOk_error] at hd
    | ok u =>
    cases he2 : verifyEnv input.env with
    | error e => rw [he2] at he; simp [isOk_error] at he
    | ok u2 =>
    cases hv2 : verifyVersion input.version with
    | error e => rw [hv2] at hv; simp [isOk_error] at hv
    | ok u3 =>
      rw [hl, hx]
      cases hf2 : NewFilter registry input.disabledFlag input.enabledFlag with
      | error e => rfl
      | ok filter => rw [hf2] at hfbad; simp [isOk_ok] at hfbad

/-- Witness for C6 as amended: an invalid environment stops the run after
the directory stat only, while the two-flag configuration error is reported
after both the load and the extraction. -/
theorem config_error_reporting_order_inst :
    validateMain reg1 ⟨.ok true, "prod", "", "", "", .ok ⟨"id", ""⟩, .ok []⟩ = (1, [.statDir]) ∧
    validateMain reg1 ⟨.ok true, "integration", "", "AM0001", "AM0001", .ok ⟨"id", ""⟩, .ok []⟩
      = (1, [.statDir, .loadMeta, .extractBundles, .buildFilter]) := by
  have h1 := config_error_reporting_order reg1 ⟨.ok true, "prod", "", "", "", .ok ⟨"id", ""⟩, .ok []⟩
  have h2 := config_error_reporting_order reg1
    ⟨.ok true, "integration", "", "AM0001", "AM0001", .ok ⟨"id", ""⟩, .ok []⟩
  exact ⟨h1.1 (Or.inr (Or.inl rfl)),
    h2.2 rfl rfl rfl ⟨"id", ""⟩ [] rfl rfl rfl⟩

end AddonFlow
